import Mathlib

/-!
Verification of the Likert survey aggregation core (`app.py` / `build_data.py`).

The Python code is shallowly embedded: a table is an ordered list of column
names plus a list of rows, a row being a total map from column name to an
optional string cell (pandas null / absent cells are `none`).  Percentages are
modelled over `ℚ`; `round1` mirrors Python's `round(x, 1)` (Python rounds
binary floats half-to-even, the rational model rounds halves up; no statement
below depends on the direction of an exact half tie).  Python's `str.strip`
and the regex class `\s` are modelled by `pyWs`, which covers the whitespace
characters that occur in the data (space, tab, newlines, vertical tab, form
feed, and the non-breaking space).  `str.lower` is modelled for the ASCII
range plus the accented Spanish letters used by the vocabularies.
-/

attribute [local semireducible] Rat.mul Rat.add Rat.sub Rat.inv

namespace Likert

/-- Whitespace as recognised by Python's `str.strip` and the regex `\s`,
restricted to the characters relevant here. -/
def pyWs (c : Char) : Bool :=
  c = ' ' || c = '\t' || c = '\n' || c = '\r' ||
    c = Char.ofNat 0x0B || c = Char.ofNat 0x0C || c = Char.ofNat 0xA0

/-- One character of Python `str.lower`: ASCII letters plus the accented
Spanish letters appearing in the survey vocabularies. -/
def lowerChar (c : Char) : Char :=
  if 'A' ≤ c ∧ c ≤ 'Z' then Char.ofNat (c.toNat + 32)
  else if c = 'Á' then 'á'
  else if c = 'É' then 'é'
  else if c = 'Í' then 'í'
  else if c = 'Ó' then 'ó'
  else if c = 'Ú' then 'ú'
  else if c = 'Ü' then 'ü'
  else if c = 'Ñ' then 'ñ'
  else c

/-- Python `str.lower`. -/
def pyLower (s : String) : String := ⟨s.data.map lowerChar⟩

/-- Drop the longest run of whitespace at the end of a character list. -/
def dropTrailWs (l : List Char) : List Char :=
  (l.reverse.dropWhile pyWs).reverse

/-- Python `str.strip`. -/
def pyStrip (s : String) : String :=
  ⟨dropTrailWs (s.data.dropWhile pyWs)⟩

/-- `_clean_text_series`, step 1: NBSP to plain space, em dash to en dash
(the en dash is replaced by itself in the source). -/
def cleanChar (c : Char) : Char :=
  if c = Char.ofNat 0xA0 then ' '
  else if c = Char.ofNat 0x2014 then Char.ofNat 0x2013
  else c

/-- Map every whitespace character to a plain space (first half of the
regex replacement of a whitespace run by one space). -/
def wsToSpace (c : Char) : Char := if pyWs c then ' ' else c

/-- Collapse each run of consecutive spaces to a single space (second half of
the regex replacement of a whitespace run by one space). -/
def squeeze : List Char → List Char
  | [] => []
  | [c] => [c]
  | a :: b :: rest =>
    if a = ' ' ∧ b = ' ' then squeeze (b :: rest) else a :: squeeze (b :: rest)

/-- `_clean_text_series` applied to one already-stringified cell: NBSP and
dash normalisation, whitespace-run collapse, strip. -/
def clean_text (s : String) : String :=
  pyStrip ⟨squeeze ((s.data.map cleanChar).map wsToSpace)⟩

/-- Substring test on character lists: does the needle occur as a prefix? -/
def charsLeadWith : List Char → List Char → Bool
  | [], _ => true
  | _ :: _, [] => false
  | a :: as, b :: bs => a = b && charsLeadWith as bs

/-- Substring test on character lists: does the needle occur anywhere? -/
def charsContain (needle : List Char) : List Char → Bool
  | [] => needle.isEmpty
  | b :: bs => charsLeadWith needle (b :: bs) || charsContain needle bs

/-- Python's `needle in hay` on strings. -/
def strContains (hay needle : String) : Bool :=
  charsContain needle.data hay.data

/-! ## Data model -/

/-- A row of the table: a map from column name to an optional cell.  A pandas
null (NaN / None) cell and an absent key are both modelled as `none`. -/
abbrev Row := String → Option String

/-- A table snapshot: the ordered column names and the ordered rows. -/
structure Table where
  cols : List String
  rows : List Row

/-- pandas `astype(str)` on one cell: a null renders as the string `nan`. -/
def cellStr : Option String → String
  | some s => s
  | none => "nan"

/-- The non-null values of one column, in row order (`df[c].dropna()`). -/
def colVals (t : Table) (c : String) : List String :=
  t.rows.filterMap (fun r => r c)

/-- The distinct non-null values of one column (`df[c].dropna().unique()`). -/
def uniqueVals (t : Table) (c : String) : List String :=
  (colVals t c).dedup

/-! ## Vocabularies and column classification -/

/-- Fixed Likert five-point label order. -/
def LIKERT5_ORDER : List String :=
  ["Muy satisfecho", "Satisfecho", "Neutral", "Insatisfecho", "Muy insatisfecho"]

/-- Fixed yes/no label order. -/
def YESNO_ORDER : List String := ["Sí", "No"]

/-- Lower-cased Likert vocabulary used by the subset test. -/
def likertVocab : List String :=
  ["muy satisfecho", "satisfecho", "neutral", "insatisfecho", "muy insatisfecho"]

/-- Lower-cased yes/no vocabulary used by the subset test. -/
def yesnoVocab : List String := ["sí", "si", "no"]

/-- The `likert_map` dictionary of the source: lower-cased label to canonical
label, `none` when the key is absent. -/
def likert_map (s : String) : Option String :=
  if s = "muy satisfecho" then some "Muy satisfecho"
  else if s = "satisfecho" then some "Satisfecho"
  else if s = "neutral" then some "Neutral"
  else if s = "insatisfecho" then some "Insatisfecho"
  else if s = "muy insatisfecho" then some "Muy insatisfecho"
  else none

/-- The case-insensitive keyword blocklist applied to column names. -/
def skip_keywords : List String :=
  ["marca temporal", "nombre del alumno", "campus", "nivel educativo",
   "grado", "¿por qué", "comentarios", "sugerencias"]

/-- Name-based exclusion of a column: the null-name placeholder
(`c is None or str(c) == 'None'`) or a blocklist keyword occurring in the
lower-cased name. -/
def nameExcluded (c : String) : Bool :=
  c = "None" || skip_keywords.any (fun kw => strContains (pyLower c) kw)

/-- The candidate question columns: name not excluded and at most ten
distinct non-null raw values. -/
def question_cols (t : Table) : List String :=
  t.cols.filter (fun c => !nameExcluded c && (uniqueVals t c).length ≤ 10)

/-- The distinct lower-cased, stripped non-null values of a column
(`set(str(v).strip().lower() for v in df[c].dropna().unique())`). -/
def loweredVals (t : Table) (c : String) : List String :=
  ((uniqueVals t c).map (fun v => pyLower (pyStrip v))).dedup

/-- The subset test against the Likert vocabulary. -/
def subsetLikert (t : Table) (c : String) : Bool :=
  (loweredVals t c).all (fun v => likertVocab.contains v)

/-- The subset test against the yes/no vocabulary. -/
def subsetYesNo (t : Table) (c : String) : Bool :=
  (loweredVals t c).all (fun v => yesnoVocab.contains v)

/-- The columns classified `Likert5`, in table column order. -/
def likert5_cols (t : Table) : List String :=
  (question_cols t).filter (fun c => subsetLikert t c)

/-- The columns classified `YesNo`, in table column order (the `elif`
branch: not a Likert subset, but a yes/no subset). -/
def yesno_cols (t : Table) : List String :=
  (question_cols t).filter (fun c => !subsetLikert t c && subsetYesNo t c)

/-! ## Cell canonicalisation and group keys -/

/-- `classify_and_prepare`'s per-cell rewrite in `app.py`: Likert cells are
sent through `likert_map` (falling back to the raw value), yes/no cells are
sent to the canonical `Sí` / `No` (falling back to the raw value), all other
cells are untouched.  Classification reads the original table, so the rewrite
is a pure function of the original table. -/
def appCanonCell (t : Table) (c : String) (x : String) : String :=
  if (likert5_cols t).contains c then
    match likert_map (pyLower (pyStrip x)) with
    | some lbl => lbl
    | none => x
  else if (yesno_cols t).contains c then
    if pyLower (pyStrip x) = "sí" ∨ pyLower (pyStrip x) = "si" then "Sí"
    else if pyLower (pyStrip x) = "no" then "No"
    else x
  else x

/-- `build_data.py`'s per-cell rewrite: identical for Likert cells, but
yes/no columns are classified without any rewrite of their cells. -/
def bdCanonCell (t : Table) (c : String) (x : String) : String :=
  if (likert5_cols t).contains c then
    match likert_map (pyLower (pyStrip x)) with
    | some lbl => lbl
    | none => x
  else x

/-- The group key of a row in `app.py`: when both identifying columns exist,
`clean_text(level) ++ " – " ++ clean_text(site)` (pandas stringifies a null
cell to `nan` before cleaning), else the constant `Plantel`; the result is
passed through `clean_text` once more. -/
def appPlantelVal (t : Table) (r : Row) : String :=
  if t.cols.contains "Nivel Educativo" && t.cols.contains "Campus" then
    clean_text
      (clean_text (cellStr (r "Nivel Educativo")) ++ " – " ++
        clean_text (cellStr (r "Campus")))
  else clean_text "Plantel"

/-- The group key of a row in `build_data.py`: `strip(level) ++ " – " ++
strip(site)`; a null in either identifying cell propagates to a null key
(pandas string concatenation with NaN). -/
def bdPlantelVal (r : Row) : Option String :=
  match r "Nivel Educativo", r "Campus" with
  | some a, some b => some (pyStrip a ++ " – " ++ pyStrip b)
  | _, _ => none

/-- The prepared table of `app.py`: classified cells canonicalised and the
derived `plantel` column appended. -/
def appPrepare (t : Table) : Table :=
  ⟨t.cols ++ ["plantel"],
   t.rows.map (fun r c =>
     if c = "plantel" then some (appPlantelVal t r)
     else (r c).map (appCanonCell t c))⟩

/-- The prepared table of `build_data.py`: Likert cells canonicalised and the
derived `plantel` column appended. -/
def bdPrepare (t : Table) : Table :=
  ⟨t.cols ++ ["plantel"],
   t.rows.map (fun r c =>
     if c = "plantel" then bdPlantelVal r
     else (r c).map (bdCanonCell t c))⟩

/-- The sorted list of distinct non-null group keys
(`sorted(df["plantel"].dropna().unique().tolist())`); its 0-based positions
are the group ids. -/
def plantelNames (rows : List Row) : List String :=
  List.insertionSort (fun a b => a ≤ b) ((rows.filterMap (fun r => r "plantel")).dedup)

/-! ## Distribution computation -/

/-- Python's `round(x, 1)` over `ℚ` (`round` rounds halves up; Python's
float rounding is half-to-even, which agrees except on exact half ties, and
no statement below depends on the direction of such a tie). -/
def round1 (x : ℚ) : ℚ := (round (x * 10) : ℤ) / 10

/-- One label's slice of a question result. -/
structure LabelDatum where
  label : String
  count : Nat
  pct : ℚ
deriving DecidableEq, Repr, Inhabited

/-- One question's distribution over a row subset. -/
structure QuestionResult where
  question : String
  qtype : String
  total : Nat
  data : List LabelDatum
deriving DecidableEq, Repr, Inhabited

/-- Occurrences of a label among the non-null cells of a column over a row
subset (`sub_df[col].value_counts().get(label, 0)`). -/
def colCountIn (sub : List Row) (col lbl : String) : Nat :=
  (sub.filterMap (fun r => r col)).count lbl

/-- `compute_results` of `app.py`: one entry per classified column, Likert
columns first, unless any of the three classified-column lists is empty, in
which case the result is empty.  `subCols` is the column set of the subframe
(a column absent from it counts zero). -/
def compute_results (likert5C yesnoC subCols : List String) (sub : List Row) :
    List QuestionResult :=
  let total := sub.length
  if (likert5C ++ yesnoC).isEmpty || likert5C.isEmpty || yesnoC.isEmpty then []
  else
    (likert5C ++ yesnoC).map (fun col =>
      let isL := likert5C.contains col
      let order := if isL then LIKERT5_ORDER else YESNO_ORDER
      ⟨col, if isL then "likert5" else "yesno", total,
        order.map (fun lbl =>
          let c := if subCols.contains col then colCountIn sub col lbl else 0
          ⟨lbl, c, if total > 0 then round1 ((c : ℚ) / (total : ℚ) * 100) else 0⟩)⟩)

/-- A per-group result of `build_data.py`. -/
structure PlantelResult where
  name : String
  total : Nat
  questions : List QuestionResult
deriving DecidableEq, Repr

/-- `compute_plantel` of `build_data.py`: one entry per classified column,
Likert columns first, with no emptiness guard. -/
def compute_plantel (likert5C yesnoC : List String) (sub : List Row) (label : String) :
    PlantelResult :=
  let total := sub.length
  ⟨label, total,
    (likert5C ++ yesnoC).map (fun col =>
      let isL := likert5C.contains col
      let order := if isL then LIKERT5_ORDER else YESNO_ORDER
      ⟨col, if isL then "likert5" else "yesno", total,
        order.map (fun lbl =>
          let c := colCountIn sub col lbl
          ⟨lbl, c, if total > 0 then round1 ((c : ℚ) / (total : ℚ) * 100) else 0⟩)⟩)⟩

/-! ## Cross-group ranking -/

/-- The per-group aggregate row assembled inside `compute_likert_compare`. -/
structure CompareRow where
  plantel : String
  respondents : Nat
  likert_answers : Nat
  pct : String → ℚ
  negative_pct : ℚ
  positive_pct : ℚ

/-- The subframe of one group
(`df[df["plantel"] == plantel] if "plantel" in df.columns else pd.DataFrame()`). -/
def subRowsFor (t : Table) (p : String) : List Row :=
  if t.cols.contains "plantel" then t.rows.filter (fun r => r "plantel" == some p)
  else []

/-- The Likert columns present in the subframe
(`[c for c in likert5_cols if c in sub.columns]`; a subframe carries the
whole table's columns). -/
def likertColsPresent (t : Table) (likertC : List String) : List String :=
  likertC.filter (fun c => t.cols.contains c)

/-- The group's Likert cells flattened across columns and rows with nulls
dropped (`pd.Series(sub[cols_present].to_numpy().ravel()).dropna()`). -/
def likertVals (t : Table) (likertC : List String) (p : String) : List String :=
  ((subRowsFor t p).map
    (fun r => (likertColsPresent t likertC).filterMap (fun c => r c))).flatten

/-- The group's per-label counts (`counts_map`): zero when the group has no
rows or no Likert column is present, else the occurrence count in the
flattened collection. -/
def likertCounts (t : Table) (likertC : List String) (p : String) (k : String) : Nat :=
  if (subRowsFor t p).length = 0 then 0
  else if (likertColsPresent t likertC).isEmpty then 0
  else (likertVals t likertC p).count k

/-- The group's `likert_answers` (`sum(counts_map.values())`). -/
def likertAnswersFor (t : Table) (likertC : List String) (p : String) : Nat :=
  (LIKERT5_ORDER.map (likertCounts t likertC p)).sum

/-- The group's `pct_map`: all-zero when `likert_answers` is zero. -/
def pctFor (t : Table) (likertC : List String) (p k : String) : ℚ :=
  if likertAnswersFor t likertC p > 0 then
    round1 ((likertCounts t likertC p k : ℚ) / (likertAnswersFor t likertC p : ℚ) * 100)
  else 0

/-- The per-group aggregation of `compute_likert_compare`. -/
def compareRowFor (t : Table) (likertC : List String) (p : String) : CompareRow :=
  ⟨p, (subRowsFor t p).length, likertAnswersFor t likertC p, pctFor t likertC p,
    round1 (pctFor t likertC p "Insatisfecho" + pctFor t likertC p "Muy insatisfecho"),
    round1 (pctFor t likertC p "Muy satisfecho" + pctFor t likertC p "Satisfecho")⟩

/-- The sort key order of the ranker: the Python key tuple
`(-negative_pct, -respondents, plantel)` compared lexicographically. -/
def rowLE (a b : CompareRow) : Prop :=
  b.negative_pct < a.negative_pct ∨
    (a.negative_pct = b.negative_pct ∧
      (b.respondents < a.respondents ∨
        (a.respondents = b.respondents ∧ a.plantel ≤ b.plantel)))

theorem not_data_lt_iff_le (s t : String) : (¬ t.data < s.data) ↔ s ≤ t := by
  rw [show t.data = t.toList from rfl, show s.data = s.toList from rfl,
    ← String.lt_iff_toList_lt, not_lt]

instance : DecidableRel rowLE := fun a b =>
  decidable_of_iff
    (b.negative_pct < a.negative_pct ∨
      (a.negative_pct = b.negative_pct ∧
        (b.respondents < a.respondents ∨
          (a.respondents = b.respondents ∧ ¬ b.plantel.data < a.plantel.data))))
    (by
      unfold rowLE
      exact or_congr Iff.rfl (and_congr Iff.rfl (or_congr Iff.rfl
        (and_congr Iff.rfl (not_data_lt_iff_le a.plantel b.plantel)))))

/-- The cross-group comparison payload (the `ok` flag, constantly true, is
omitted). -/
structure ComparePayload where
  order : List String
  planteles : List String
  respondents : List Nat
  likert_answers : List Nat
  pct_by_label : List (String × List ℚ)
  negative_pct : List ℚ
  positive_pct : List ℚ
  foco_red : List Bool
deriving DecidableEq, Repr

/-- `compute_likert_compare` of `app.py`: degenerate branches for no groups
and for no Likert columns, otherwise per-group aggregation, a sort by
`(-negative_pct, -respondents, name)`, and `foco rojo` flags on the first
three sorted entries having Likert answers. -/
def compute_likert_compare (t : Table) (likertC : List String) (ps : List String) :
    ComparePayload :=
  if ps.isEmpty then
    ⟨LIKERT5_ORDER, [], [], [], LIKERT5_ORDER.map (fun k => (k, [])), [], [], []⟩
  else if likertC.isEmpty then
    ⟨LIKERT5_ORDER, ps,
      ps.map (fun p => (t.rows.filter (fun r => r "plantel" == some p)).length),
      ps.map (fun _ => 0),
      LIKERT5_ORDER.map (fun k => (k, ps.map (fun _ => (0 : ℚ)))),
      ps.map (fun _ => 0), ps.map (fun _ => 0), ps.map (fun _ => false)⟩
  else
    let rows := List.insertionSort rowLE (ps.map (compareRowFor t likertC))
    let eligible := (rows.enum.filter (fun ir => ir.2.likert_answers > 0)).map Prod.fst
    let focoIdx := eligible.take 3
    ⟨LIKERT5_ORDER,
      rows.map (fun r => r.plantel),
      rows.map (fun r => r.respondents),
      rows.map (fun r => r.likert_answers),
      LIKERT5_ORDER.map (fun k => (k, rows.map (fun r => r.pct k))),
      rows.map (fun r => r.negative_pct),
      rows.map (fun r => r.positive_pct),
      (List.range rows.length).map (fun i => focoIdx.contains i)⟩

/-! ## Concrete tables used by witnesses and counterexamples -/

/-- A row with a single Likert answer. -/
def rowQ : Row := fun c => if c = "Q" then some "Neutral" else none

/-- A table with one Likert column and no yes/no column. -/
def Tab1 : Table := ⟨["Q"], [rowQ]⟩

/-- A row belonging to group `A` that answered no Likert question. -/
def rowA : Row := fun c => if c = "plantel" then some "A" else none

/-- A row belonging to group `B` with one neutral Likert answer. -/
def rowB : Row :=
  fun c => if c = "plantel" then some "B" else if c = "Q" then some "Neutral" else none

/-- A prepared two-group table: group `A` has no Likert answers, group `B`
has one neutral answer, so both groups tie at zero `negative_pct`. -/
def Tab2 : Table := ⟨["plantel", "Q"], [rowA, rowB]⟩

/-- A row answering the single yes/no question with the raw value `si`. -/
def rowSi : Row := fun c => if c = "Q" then some "si" else none

/-- A table with one yes/no column whose only value is the raw `si`. -/
def TabSi : Table := ⟨["Q"], [rowSi]⟩

/-- A column with no non-null values next to the mixed-case Likert column of
the spec's classification test. -/
def rowL1 : Row := fun c => if c = "Q" then some "Satisfecho" else none

def rowL2 : Row := fun c => if c = "Q" then some "satisfecho" else none

def rowL3 : Row := fun c => if c = "Q" then some "SATISFECHO " else none

/-- A table with a mixed-case Likert column `Q` and an all-null column `R`. -/
def TabC3 : Table := ⟨["Q", "R"], [rowL1, rowL2, rowL3]⟩

/-- A row whose level field contains an interior double space. -/
def rowNE : Row :=
  fun c =>
    if c = "Nivel Educativo" then some "A  B"
    else if c = "Campus" then some "C" else none

/-- A table holding `rowNE`. -/
def TabNE : Table := ⟨["Nivel Educativo", "Campus"], [rowNE]⟩

/-! ## Helper lemmas -/

theorem map_question_of_pointwise (l : List String) (f : String → QuestionResult)
    (hf : ∀ c, (f c).question = c) :
    (l.map f).map (fun q => q.question) = l := by
  rw [List.map_map]
  have : (fun q : QuestionResult => q.question) ∘ f = fun c => c := funext hf
  rw [this, List.map_id']

theorem compute_plantel_questions (L Y : List String) (sub : List Row) (lbl : String) :
    (compute_plantel L Y sub lbl).questions.map (fun q => q.question) = L ++ Y :=
  map_question_of_pointwise _ _ (fun _ => rfl)

theorem compute_results_questions_of_ne (L Y subCols : List String) (sub : List Row)
    (hL : L ≠ []) (hY : Y ≠ []) :
    (compute_results L Y subCols sub).map (fun q => q.question) = L ++ Y := by
  have hg : ((L ++ Y).isEmpty || L.isEmpty || Y.isEmpty) = false := by
    simp [List.isEmpty_iff, hL, hY]
  unfold compute_results
  rw [if_neg (by simp [hg])]
  exact map_question_of_pointwise _ _ (fun _ => rfl)

theorem compute_results_empty_of_empty (L Y subCols : List String) (sub : List Row)
    (h : L = [] ∨ Y = []) : compute_results L Y subCols sub = [] := by
  unfold compute_results
  rcases h with h | h <;> rw [if_pos (by simp [h])]

/-! ## C1 -/

/-- C1: the claim states that `compute_results` returns one entry per
classified column and the empty list exactly when no columns were classified.
At this table one column is classified (`Likert5`), yet `compute_results`
returns the empty list, because its guard also fires when the `YesNo` list
alone is empty. -/
theorem C1_counterexample :
    likert5_cols Tab1 = ["Q"] ∧ yesno_cols Tab1 = [] ∧
      compute_results (likert5_cols Tab1) (yesno_cols Tab1) Tab1.cols Tab1.rows = [] := by
  refine ⟨by decide, by decide, by decide⟩

/-- C1 (amended): `compute_plantel` returns one entry per classified question
column, `Likert5` columns first then `YesNo` columns, each list in table
column order, and is empty exactly when no column was classified;
`compute_results` does the same except that it returns the empty list
whenever the `Likert5` list or the `YesNo` list is empty (not only when both
are). -/
theorem C1_corrected (t : Table) (sub : List Row) (subCols : List String) (lbl : String) :
    ((compute_plantel (likert5_cols t) (yesno_cols t) sub lbl).questions.map
        (fun q => q.question) = likert5_cols t ++ yesno_cols t)
    ∧ ((compute_results (likert5_cols t) (yesno_cols t) subCols sub).map
        (fun q => q.question) =
        if likert5_cols t = [] ∨ yesno_cols t = [] then []
        else likert5_cols t ++ yesno_cols t)
    ∧ (likert5_cols t).Sublist t.cols ∧ (yesno_cols t).Sublist t.cols := by
  refine ⟨compute_plantel_questions _ _ _ _, ?_, ?_, ?_⟩
  · by_cases h : likert5_cols t = [] ∨ yesno_cols t = []
    · rw [if_pos h, compute_results_empty_of_empty _ _ _ _ h, List.map_nil]
    · push_neg at h
      rw [if_neg (by push_neg; exact h)]
      exact compute_results_questions_of_ne _ _ _ _ h.1 h.2
  · exact (List.filter_sublist _).trans (List.filter_sublist _)
  · exact (List.filter_sublist _).trans (List.filter_sublist _)

/-! ## C8 -/

theorem data_pct_spec (order : List String) (total : Nat) (cnt : String → Nat)
    (d : LabelDatum)
    (hd : d ∈ order.map (fun lbl =>
      (⟨lbl, cnt lbl,
        if total > 0 then round1 ((cnt lbl : ℚ) / (total : ℚ) * 100) else 0⟩ : LabelDatum))) :
    (0 < total → d.pct = round1 ((d.count : ℚ) / (total : ℚ) * 100)) ∧
      (total = 0 → d.pct = 0) := by
  obtain ⟨lbl, -, rfl⟩ := List.mem_map.1 hd
  constructor
  · intro h
    simp only [if_pos h]
  · intro h
    subst h
    simp

/-- C8: for every question entry produced by either distribution computation
and every label slice in it, the percentage is `round(count / total * 100, 1)`
when the total is positive and `0` when the total is zero, each label rounded
independently. -/
theorem C8_confirmed (L Y subCols : List String) (sub : List Row) (lbl : String) :
    (∀ q ∈ compute_results L Y subCols sub, ∀ d ∈ q.data,
        (0 < q.total → d.pct = round1 ((d.count : ℚ) / (q.total : ℚ) * 100)) ∧
        (q.total = 0 → d.pct = 0))
    ∧ (∀ q ∈ (compute_plantel L Y sub lbl).questions, ∀ d ∈ q.data,
        (0 < q.total → d.pct = round1 ((d.count : ℚ) / (q.total : ℚ) * 100)) ∧
        (q.total = 0 → d.pct = 0)) := by
  constructor
  · intro q hq d hd
    unfold compute_results at hq
    by_cases hg : ((L ++ Y).isEmpty || L.isEmpty || Y.isEmpty) = true
    · rw [if_pos hg] at hq
      exact absurd hq (List.not_mem_nil q)
    · rw [if_neg hg] at hq
      obtain ⟨col, -, rfl⟩ := List.mem_map.1 hq
      exact data_pct_spec _ sub.length
        (fun l2 => if subCols.contains col then colCountIn sub col l2 else 0) d hd
  · intro q hq d hd
    unfold compute_plantel at hq
    obtain ⟨col, -, rfl⟩ := List.mem_map.1 hq
    exact data_pct_spec _ sub.length (fun l2 => colCountIn sub col l2) d hd

/-- C8 witness: the theorem applied to the concrete table `Tab2`, its
membership hypotheses discharged at the first question entry and its first
label slice. -/
theorem C8_confirmed_witness :
    (0 < ((compute_plantel ["Q"] [] Tab2.rows "All").questions.head!).total →
      ((((compute_plantel ["Q"] [] Tab2.rows "All").questions.head!).data.head!).pct =
        round1
          ((((((compute_plantel ["Q"] [] Tab2.rows "All").questions.head!).data.head!).count : ℚ)) /
              ((((compute_plantel ["Q"] [] Tab2.rows "All").questions.head!).total : ℚ)) * 100))) ∧
    (((compute_plantel ["Q"] [] Tab2.rows "All").questions.head!).total = 0 →
      ((((compute_plantel ["Q"] [] Tab2.rows "All").questions.head!).data.head!).pct = 0)) :=
  (C8_confirmed ["Q"] [] [] Tab2.rows "All").2
    ((compute_plantel ["Q"] [] Tab2.rows "All").questions.head!)
    (List.head!_mem_self (by decide))
    (((compute_plantel ["Q"] [] Tab2.rows "All").questions.head!).data.head!)
    (List.head!_mem_self (by decide))

/-! ## Classification membership lemmas -/

theorem mem_question_cols_iff (t : Table) (c : String) :
    c ∈ question_cols t ↔
      c ∈ t.cols ∧ nameExcluded c = false ∧ (uniqueVals t c).length ≤ 10 := by
  simp [question_cols, List.mem_filter, Bool.and_eq_true, decide_eq_true_eq,
    Bool.not_eq_true', and_assoc]

theorem mem_likert5_cols_iff (t : Table) (c : String) :
    c ∈ likert5_cols t ↔ c ∈ question_cols t ∧ subsetLikert t c = true := by
  simp [likert5_cols, List.mem_filter]

theorem mem_yesno_cols_iff (t : Table) (c : String) :
    c ∈ yesno_cols t ↔
      c ∈ question_cols t ∧ subsetLikert t c = false ∧ subsetYesNo t c = true := by
  simp [yesno_cols, List.mem_filter, Bool.and_eq_true, Bool.not_eq_true', and_assoc]

theorem subsetLikert_iff (t : Table) (c : String) :
    subsetLikert t c = true ↔ ∀ v ∈ uniqueVals t c, pyLower (pyStrip v) ∈ likertVocab := by
  simp [subsetLikert, loweredVals, List.all_eq_true, List.mem_dedup, List.mem_map]

theorem subsetYesNo_iff (t : Table) (c : String) :
    subsetYesNo t c = true ↔ ∀ v ∈ uniqueVals t c, pyLower (pyStrip v) ∈ yesnoVocab := by
  simp [subsetYesNo, loweredVals, List.all_eq_true, List.mem_dedup, List.mem_map]

/-! ## C3 -/

/-- C3: a column whose name survives the name-based exclusion is excluded
when it has more than ten distinct non-null raw values; otherwise it is
classified `Likert5` when its lower-cased, stripped distinct values all lie
in the Likert vocabulary, else `YesNo` when they all lie in the yes/no
vocabulary, else left unclassified. -/
theorem C3_confirmed (t : Table) (c : String) (hc : c ∈ t.cols)
    (hname : nameExcluded c = false) :
    (10 < (uniqueVals t c).length → c ∉ likert5_cols t ∧ c ∉ yesno_cols t)
    ∧ ((uniqueVals t c).length ≤ 10 →
      ((∀ v ∈ uniqueVals t c, pyLower (pyStrip v) ∈ likertVocab) →
          c ∈ likert5_cols t ∧ c ∉ yesno_cols t)
      ∧ (¬ (∀ v ∈ uniqueVals t c, pyLower (pyStrip v) ∈ likertVocab) →
          (∀ v ∈ uniqueVals t c, pyLower (pyStrip v) ∈ yesnoVocab) →
          c ∈ yesno_cols t ∧ c ∉ likert5_cols t)
      ∧ (¬ (∀ v ∈ uniqueVals t c, pyLower (pyStrip v) ∈ likertVocab) →
          ¬ (∀ v ∈ uniqueVals t c, pyLower (pyStrip v) ∈ yesnoVocab) →
          c ∉ likert5_cols t ∧ c ∉ yesno_cols t)) := by
  constructor
  · intro h10
    have hq : c ∉ question_cols t := by
      rw [mem_question_cols_iff]
      push_neg
      intro _ _
      omega
    exact ⟨fun h => hq ((mem_likert5_cols_iff t c).1 h).1,
      fun h => hq ((mem_yesno_cols_iff t c).1 h).1⟩
  · intro h10
    have hq : c ∈ question_cols t := (mem_question_cols_iff t c).2 ⟨hc, hname, h10⟩
    refine ⟨?_, ?_, ?_⟩
    · intro hsub
      have hsl : subsetLikert t c = true := (subsetLikert_iff t c).2 hsub
      refine ⟨(mem_likert5_cols_iff t c).2 ⟨hq, hsl⟩, fun hy => ?_⟩
      rw [mem_yesno_cols_iff] at hy
      rw [hy.2.1] at hsl
      exact Bool.false_ne_true hsl
    · intro hnl hyn
      have hsl : subsetLikert t c = false := by
        rcases Bool.eq_false_or_eq_true (subsetLikert t c) with h | h
        · exact absurd ((subsetLikert_iff t c).1 h) hnl
        · exact h
      refine ⟨(mem_yesno_cols_iff t c).2 ⟨hq, hsl, (subsetYesNo_iff t c).2 hyn⟩, fun hl => ?_⟩
      rw [mem_likert5_cols_iff] at hl
      rw [hsl] at hl
      exact Bool.false_ne_true hl.2
    · intro hnl hny
      constructor
      · intro hl
        exact hnl ((subsetLikert_iff t c).1 ((mem_likert5_cols_iff t c).1 hl).2)
      · intro hy
        exact hny ((subsetYesNo_iff t c).1 ((mem_yesno_cols_iff t c).1 hy).2.2)

/-- C3 witness: the spec's classification test case, values
`Satisfecho`, `satisfecho`, `SATISFECHO ` give a `Likert5` column. -/
theorem C3_confirmed_witness :
    "Q" ∈ likert5_cols TabC3 ∧ "Q" ∉ yesno_cols TabC3 :=
  ((C3_confirmed TabC3 "Q" (by decide) (by decide)).2 (by decide)).1 (by decide)

/-! ## C4 -/

/-- C4: a column passing the name-based exclusion with no non-null values at
all is classified `Likert5` (the empty value set is vacuously inside the
Likert vocabulary, which is tested before the yes/no one). -/
theorem C4_confirmed (t : Table) (c : String) (hc : c ∈ t.cols)
    (hname : nameExcluded c = false) (hempty : colVals t c = []) :
    c ∈ likert5_cols t := by
  have hu : uniqueVals t c = [] := by
    rw [uniqueVals, hempty]
    rfl
  refine (mem_likert5_cols_iff t c).2 ⟨(mem_question_cols_iff t c).2 ⟨hc, hname, ?_⟩, ?_⟩
  · rw [hu]
    simp
  · refine (subsetLikert_iff t c).2 ?_
    rw [hu]
    simp

/-- C4 witness: the all-null column `R` of `TabC3` is classified `Likert5`. -/
theorem C4_confirmed_witness : "R" ∈ likert5_cols TabC3 :=
  C4_confirmed TabC3 "R" (by decide) (by decide) (by decide)

/-! ## Branch equations of the ranker -/

theorem compute_likert_compare_no_groups (t : Table) (likertC : List String) :
    compute_likert_compare t likertC [] =
      ⟨LIKERT5_ORDER, [], [], [], LIKERT5_ORDER.map (fun k => (k, [])), [], [], []⟩ := rfl

theorem compute_likert_compare_no_likert (t : Table) (ps : List String) (h1 : ps ≠ []) :
    compute_likert_compare t [] ps =
      ⟨LIKERT5_ORDER, ps,
        ps.map (fun p => (t.rows.filter (fun r => r "plantel" == some p)).length),
        ps.map (fun _ => 0),
        LIKERT5_ORDER.map (fun k => (k, ps.map (fun _ => (0 : ℚ)))),
        ps.map (fun _ => 0), ps.map (fun _ => 0), ps.map (fun _ => false)⟩ := by
  unfold compute_likert_compare
  rw [if_neg (by simp [List.isEmpty_iff, h1])]
  rfl

theorem compute_likert_compare_main (t : Table) (likertC ps : List String)
    (h1 : ps ≠ []) (h2 : likertC ≠ []) :
    compute_likert_compare t likertC ps =
      ⟨LIKERT5_ORDER,
        (List.insertionSort rowLE (ps.map (compareRowFor t likertC))).map
          (fun r => r.plantel),
        (List.insertionSort rowLE (ps.map (compareRowFor t likertC))).map
          (fun r => r.respondents),
        (List.insertionSort rowLE (ps.map (compareRowFor t likertC))).map
          (fun r => r.likert_answers),
        LIKERT5_ORDER.map (fun k =>
          (k, (List.insertionSort rowLE (ps.map (compareRowFor t likertC))).map
            (fun r => r.pct k))),
        (List.insertionSort rowLE (ps.map (compareRowFor t likertC))).map
          (fun r => r.negative_pct),
        (List.insertionSort rowLE (ps.map (compareRowFor t likertC))).map
          (fun r => r.positive_pct),
        (List.range (List.insertionSort rowLE (ps.map (compareRowFor t likertC))).length).map
          (fun i =>
            ((((List.insertionSort rowLE (ps.map (compareRowFor t likertC))).enum.filter
                (fun ir => ir.2.likert_answers > 0)).map Prod.fst).take 3).contains i)⟩ := by
  unfold compute_likert_compare
  rw [if_neg (by simp [List.isEmpty_iff, h1]), if_neg (by simp [List.isEmpty_iff, h2])]

/-! ## C9 -/

theorem data_zero_spec (order : List String) (total : Nat) (cnt : String → Nat)
    (htotal : total = 0) (hcnt : ∀ l, cnt l = 0) (d : LabelDatum)
    (hd : d ∈ order.map (fun lbl =>
      (⟨lbl, cnt lbl,
        if total > 0 then round1 ((cnt lbl : ℚ) / (total : ℚ) * 100) else 0⟩ : LabelDatum))) :
    d.count = 0 ∧ d.pct = 0 := by
  obtain ⟨lbl, -, rfl⟩ := List.mem_map.1 hd
  subst htotal
  simp [hcnt]

/-- C9: the embedded core functions are total, and on the degenerate inputs
the claim names — an empty table, an empty row subset, a zero total, zero
Likert answers — they return zero or empty results: both distribution
computations yield zero totals, counts, and percentages over no rows; the
ranker yields all-empty arrays for no groups; every ranker output array has
one entry per group on all inputs; and a group with zero Likert answers gets
all-zero percentages. -/
theorem C9_confirmed :
    (∀ L Y subCols : List String, ∀ lbl : String,
        (∀ q ∈ compute_results L Y subCols ([] : List Row),
            q.total = 0 ∧ ∀ d ∈ q.data, d.count = 0 ∧ d.pct = 0)
      ∧ (∀ q ∈ (compute_plantel L Y ([] : List Row) lbl).questions,
            q.total = 0 ∧ ∀ d ∈ q.data, d.count = 0 ∧ d.pct = 0))
    ∧ (∀ t : Table, ∀ likertC : List String,
        (compute_likert_compare t likertC []).planteles = [] ∧
        (compute_likert_compare t likertC []).respondents = [] ∧
        (compute_likert_compare t likertC []).likert_answers = [] ∧
        (compute_likert_compare t likertC []).negative_pct = [] ∧
        (compute_likert_compare t likertC []).positive_pct = [] ∧
        (compute_likert_compare t likertC []).foco_red = [] ∧
        ∀ kv ∈ (compute_likert_compare t likertC []).pct_by_label, kv.2 = [])
    ∧ (∀ t : Table, ∀ likertC ps : List String,
        (compute_likert_compare t likertC ps).planteles.length = ps.length ∧
        (compute_likert_compare t likertC ps).respondents.length = ps.length ∧
        (compute_likert_compare t likertC ps).likert_answers.length = ps.length ∧
        (compute_likert_compare t likertC ps).negative_pct.length = ps.length ∧
        (compute_likert_compare t likertC ps).positive_pct.length = ps.length ∧
        (compute_likert_compare t likertC ps).foco_red.length = ps.length)
    ∧ (∀ t : Table, ∀ likertC : List String, ∀ p : String,
        (compareRowFor t likertC p).likert_answers = 0 →
        ∀ k, (compareRowFor t likertC p).pct k = 0) := by
  refine ⟨?_, ?_, ?_, ?_⟩
  · intro L Y subCols lbl
    constructor
    · intro q hq
      unfold compute_results at hq
      by_cases hg : ((L ++ Y).isEmpty || L.isEmpty || Y.isEmpty) = true
      · rw [if_pos hg] at hq
        exact absurd hq (List.not_mem_nil q)
      · rw [if_neg hg] at hq
        obtain ⟨col, -, rfl⟩ := List.mem_map.1 hq
        exact ⟨rfl, fun d hd => data_zero_spec _ _ _ rfl
          (fun l2 => by simp [colCountIn]) d hd⟩
    · intro q hq
      unfold compute_plantel at hq
      obtain ⟨col, -, rfl⟩ := List.mem_map.1 hq
      exact ⟨rfl, fun d hd => data_zero_spec _ _ _ rfl
        (fun l2 => by simp [colCountIn]) d hd⟩
  · intro t likertC
    refine ⟨rfl, rfl, rfl, rfl, rfl, rfl, ?_⟩
    intro kv hkv
    have e : (compute_likert_compare t likertC []).pct_by_label =
        LIKERT5_ORDER.map (fun k => (k, ([] : List ℚ))) := rfl
    rw [e] at hkv
    obtain ⟨k, -, rfl⟩ := List.mem_map.1 hkv
    rfl
  · intro t likertC ps
    by_cases h1 : ps = []
    · subst h1
      rw [compute_likert_compare_no_groups]
      exact ⟨rfl, rfl, rfl, rfl, rfl, rfl⟩
    · by_cases h2 : likertC = []
      · subst h2
        rw [compute_likert_compare_no_likert t ps h1]
        simp
      · rw [compute_likert_compare_main t likertC ps h1 h2]
        have hlen : (List.insertionSort rowLE (ps.map (compareRowFor t likertC))).length
            = ps.length := by
          rw [(List.perm_insertionSort rowLE _).length_eq, List.length_map]
        simp [hlen]
  · intro t likertC p h k
    have e : (compareRowFor t likertC p).likert_answers = likertAnswersFor t likertC p := rfl
    rw [e] at h
    have e2 : (compareRowFor t likertC p).pct k = pctFor t likertC p k := rfl
    rw [e2, pctFor, h]
    simp

/-- C9 witness: the theorem's quantified parts applied to the concrete table
`Tab2`, hypotheses discharged there. -/
theorem C9_confirmed_witness :
    ((compute_plantel ["Q"] [] ([] : List Row) "All").questions.head!).total = 0 ∧
    (compute_likert_compare Tab2 ["Q"] []).planteles = [] ∧
    (compareRowFor Tab2 ["Q"] "A").pct "Neutral" = 0 :=
  ⟨((C9_confirmed.1 ["Q"] [] [] "All").2
      ((compute_plantel ["Q"] [] ([] : List Row) "All").questions.head!)
      (List.head!_mem_self (by decide))).1,
    (C9_confirmed.2.1 Tab2 ["Q"]).1,
    C9_confirmed.2.2.2 Tab2 ["Q"] "A" (by decide) "Neutral"⟩

/-! ## Canonicalisation lemmas -/

theorem likert_map_of_mem_vocab (s : String) (hs : s ∈ likertVocab) :
    ∃ lbl ∈ LIKERT5_ORDER, likert_map s = some lbl := by
  simp only [likertVocab, List.mem_cons, List.not_mem_nil, or_false] at hs
  rcases hs with rfl | rfl | rfl | rfl | rfl <;> exact ⟨_, by decide, rfl⟩

theorem mem_colVals_of_cell (t : Table) (c : String) (r : Row) (hr : r ∈ t.rows)
    (v : String) (hv : r c = some v) : v ∈ colVals t c :=
  List.mem_filterMap.2 ⟨r, hr, hv⟩

theorem lowered_mem_of_likert (t : Table) (c : String) (hc : c ∈ likert5_cols t)
    (v : String) (hv : v ∈ colVals t c) : pyLower (pyStrip v) ∈ likertVocab :=
  (subsetLikert_iff t c).1 ((mem_likert5_cols_iff t c).1 hc).2 v (List.mem_dedup.2 hv)

theorem lowered_mem_of_yesno (t : Table) (c : String) (hc : c ∈ yesno_cols t)
    (v : String) (hv : v ∈ colVals t c) : pyLower (pyStrip v) ∈ yesnoVocab :=
  (subsetYesNo_iff t c).1 ((mem_yesno_cols_iff t c).1 hc).2.2 v (List.mem_dedup.2 hv)

theorem likert5_contains_false_of_yesno (t : Table) (c : String) (hc : c ∈ yesno_cols t) :
    (likert5_cols t).contains c = false := by
  rcases Bool.eq_false_or_eq_true ((likert5_cols t).contains c) with h | h
  · have hmem : c ∈ likert5_cols t := by simpa using h
    have h1 := ((mem_likert5_cols_iff t c).1 hmem).2
    have h2 := ((mem_yesno_cols_iff t c).1 hc).2.1
    rw [h1] at h2
    exact absurd h2 (by simp)
  · exact h

theorem appCanonCell_likert (t : Table) (c : String) (hc : c ∈ likert5_cols t)
    (v : String) (hv : v ∈ colVals t c) : appCanonCell t c v ∈ LIKERT5_ORDER := by
  obtain ⟨lbl, hlbl, hmap⟩ :=
    likert_map_of_mem_vocab _ (lowered_mem_of_likert t c hc v hv)
  unfold appCanonCell
  rw [if_pos (by simpa using hc), hmap]
  exact hlbl

theorem bdCanonCell_likert (t : Table) (c : String) (hc : c ∈ likert5_cols t)
    (v : String) (hv : v ∈ colVals t c) : bdCanonCell t c v ∈ LIKERT5_ORDER := by
  obtain ⟨lbl, hlbl, hmap⟩ :=
    likert_map_of_mem_vocab _ (lowered_mem_of_likert t c hc v hv)
  unfold bdCanonCell
  rw [if_pos (by simpa using hc), hmap]
  exact hlbl

theorem appCanonCell_yesno (t : Table) (c : String) (hc : c ∈ yesno_cols t)
    (v : String) (hv : v ∈ colVals t c) : appCanonCell t c v ∈ YESNO_ORDER := by
  have hyn := lowered_mem_of_yesno t c hc v hv
  unfold appCanonCell
  rw [if_neg (by rw [likert5_contains_false_of_yesno t c hc]; exact Bool.false_ne_true),
    if_pos (by simpa using hc)]
  simp only [yesnoVocab, List.mem_cons, List.not_mem_nil, or_false] at hyn
  rcases hyn with h | h | h
  · rw [if_pos (Or.inl h)]
    decide
  · rw [if_pos (Or.inr h)]
    decide
  · rw [h, if_neg (by decide), if_pos rfl]
    decide

/-- A column of the source table cannot be the derived `plantel` column when
the source table lacks one. -/
theorem ne_plantel_of_mem (t : Table) (c : String) (hp : "plantel" ∉ t.cols)
    (hc : c ∈ t.cols) : c ≠ "plantel" := fun h => hp (h ▸ hc)

theorem mem_cols_of_likert5 (t : Table) (c : String) (hc : c ∈ likert5_cols t) :
    c ∈ t.cols :=
  ((mem_question_cols_iff t c).1 ((mem_likert5_cols_iff t c).1 hc).1).1

theorem mem_cols_of_yesno (t : Table) (c : String) (hc : c ∈ yesno_cols t) :
    c ∈ t.cols :=
  ((mem_question_cols_iff t c).1 ((mem_yesno_cols_iff t c).1 hc).1).1

/-! ## C10 -/

/-- C10: the claim states that after classification and canonicalisation
every non-null cell of a `YesNo` column is `Sí` or `No`.  In
`build_data.py` yes/no columns are classified but never canonicalised: at
this table the column `Q` is classified `YesNo` yet its cell keeps the raw
value `si`. -/
theorem C10_counterexample :
    yesno_cols TabSi = ["Q"] ∧
    (bdPrepare TabSi).rows.map (fun r => r "Q") = [some "si"] ∧
    ("si" : String) ∉ YESNO_ORDER := by
  refine ⟨by decide, by decide, by decide⟩

/-- C10 (amended): after `app.py`'s preparation every non-null cell of a
`Likert5` column is a canonical Likert label and every non-null cell of a
`YesNo` column is `Sí` or `No`; after `build_data.py`'s preparation this
holds for `Likert5` columns only, its `YesNo` cells being left raw.  (Stated
for source tables without a column already named `plantel`, which the
preparation overwrites with the group key.) -/
theorem C10_corrected (t : Table) (hp : "plantel" ∉ t.cols) :
    (∀ c ∈ likert5_cols t, ∀ r2 ∈ (appPrepare t).rows, ∀ v, r2 c = some v →
        v ∈ LIKERT5_ORDER)
    ∧ (∀ c ∈ yesno_cols t, ∀ r2 ∈ (appPrepare t).rows, ∀ v, r2 c = some v →
        v ∈ YESNO_ORDER)
    ∧ (∀ c ∈ likert5_cols t, ∀ r2 ∈ (bdPrepare t).rows, ∀ v, r2 c = some v →
        v ∈ LIKERT5_ORDER) := by
  refine ⟨?_, ?_, ?_⟩
  · intro c hcl r2 hr2 v hv
    obtain ⟨r, hr, rfl⟩ := List.mem_map.1 hr2
    have hne := ne_plantel_of_mem t c hp (mem_cols_of_likert5 t c hcl)
    simp only [hne, if_false, ite_false] at hv
    obtain ⟨x, hx, rfl⟩ := Option.map_eq_some'.1 hv
    exact appCanonCell_likert t c hcl x (mem_colVals_of_cell t c r hr x hx)
  · intro c hcy r2 hr2 v hv
    obtain ⟨r, hr, rfl⟩ := List.mem_map.1 hr2
    have hne := ne_plantel_of_mem t c hp (mem_cols_of_yesno t c hcy)
    simp only [hne, if_false, ite_false] at hv
    obtain ⟨x, hx, rfl⟩ := Option.map_eq_some'.1 hv
    exact appCanonCell_yesno t c hcy x (mem_colVals_of_cell t c r hr x hx)
  · intro c hcl r2 hr2 v hv
    obtain ⟨r, hr, rfl⟩ := List.mem_map.1 hr2
    have hne := ne_plantel_of_mem t c hp (mem_cols_of_likert5 t c hcl)
    simp only [hne, if_false, ite_false] at hv
    obtain ⟨x, hx, rfl⟩ := Option.map_eq_some'.1 hv
    exact bdCanonCell_likert t c hcl x (mem_colVals_of_cell t c r hr x hx)

/-- C10 witness: the amended invariant applied to the concrete table `Tab1`
at its only row and Likert column. -/
theorem C10_corrected_witness : ("Neutral" : String) ∈ LIKERT5_ORDER :=
  (C10_corrected Tab1 (by decide)).1 "Q" (by decide)
    ((appPrepare Tab1).rows.head!)
    (List.head!_mem_self (by simp [appPrepare, Tab1]))
    "Neutral" (by decide)

/-! ## C6 -/

/-- C6: the claim states that the group key is
`clean_text(level) ++ " – " ++ clean_text(site)` (cleaned once more) with a
`Plantel` fallback when a column is absent.  `build_data.py` instead builds
`strip(level) ++ " – " ++ strip(site)`: on a level field with an interior
double space the two differ, since `clean_text` collapses whitespace runs
and `strip` does not. -/
theorem C6_counterexample :
    bdPlantelVal rowNE = some "A  B – C" ∧
    clean_text (clean_text "A  B" ++ " – " ++ clean_text "C") = "A B – C" ∧
    ("A  B – C" : String) ≠ "A B – C" := by
  refine ⟨by decide, by decide, by decide⟩

/-- C6 (amended): in `app.py` the group key is as claimed —
`clean_text(level) ++ " – " ++ clean_text(site)` passed once more through
`clean_text`, with every row's key the constant `Plantel` when either
identifying column is absent — and the group list is the lexicographically
sorted list of distinct non-null keys, positions giving the 0-based ids; in
`build_data.py` the key is `strip(level) ++ " – " ++ strip(site)` without the
`clean_text` normalisation and without any fallback for absent columns. -/
theorem C6_corrected (t : Table) (r : Row) (lvl site : String)
    (hNE : t.cols.contains "Nivel Educativo" = true)
    (hCa : t.cols.contains "Campus" = true)
    (hl : r "Nivel Educativo" = some lvl) (hs : r "Campus" = some site) :
    appPlantelVal t r = clean_text (clean_text lvl ++ " – " ++ clean_text site)
    ∧ (∀ t2 : Table, ∀ r2 : Row,
        (t2.cols.contains "Nivel Educativo" = false ∨ t2.cols.contains "Campus" = false) →
        appPlantelVal t2 r2 = "Plantel")
    ∧ bdPlantelVal r = some (pyStrip lvl ++ " – " ++ pyStrip site)
    ∧ (∀ rows : List Row,
        (plantelNames rows).Sorted (fun a b => a ≤ b)
        ∧ (plantelNames rows).Nodup
        ∧ (∀ x, x ∈ plantelNames rows ↔ ∃ r3 ∈ rows, r3 "plantel" = some x)) := by
  refine ⟨?_, ?_, ?_, ?_⟩
  · unfold appPlantelVal
    rw [if_pos (by rw [hNE, hCa]; rfl), hl, hs]
    rfl
  · intro t2 r2 h
    unfold appPlantelVal
    rw [if_neg (by
      intro hcontra
      rw [Bool.and_eq_true] at hcontra
      rcases h with h | h
      · rw [h] at hcontra
        exact Bool.false_ne_true hcontra.1
      · rw [h] at hcontra
        exact Bool.false_ne_true hcontra.2)]
    rfl
  · unfold bdPlantelVal
    rw [hl, hs]
  · intro rows
    refine ⟨List.sorted_insertionSort _ _, ?_, ?_⟩
    · exact ((List.perm_insertionSort _ _).nodup_iff).2 (List.nodup_dedup _)
    · intro x
      simp [plantelNames, List.mem_dedup, List.mem_filterMap]

/-- C6 witness: the amended key formula applied to the concrete row of
`TabNE`. -/
theorem C6_corrected_witness :
    appPlantelVal TabNE rowNE = clean_text (clean_text "A  B" ++ " – " ++ clean_text "C") :=
  (C6_corrected TabNE rowNE "A  B" "C" (by decide) (by decide) (by decide) (by decide)).1

/-! ## Counting lemmas for C5 -/

theorem sum_map_ite_eq_count (a : String) (L : List String) :
    (L.map (fun k => if a = k then 1 else 0)).sum = L.count a := by
  induction L with
  | nil => rfl
  | cons b tl ih =>
    by_cases hab : a = b
    · subst hab
      simp [List.count_cons, ih, add_comm]
    · simp [List.count_cons, ih, hab, fun h : b = a => hab h.symm]

theorem sum_counts_eq_length (L : List String) (hnd : L.Nodup) :
    ∀ l : List String, (∀ v ∈ l, v ∈ L) → (L.map (fun k => l.count k)).sum = l.length := by
  intro l
  induction l with
  | nil => intro _; simp
  | cons a tl ih =>
    intro h
    have ha : a ∈ L := h a (by simp)
    have htl : ∀ v ∈ tl, v ∈ L := fun v hv => h v (by simp [hv])
    have hstep : L.map (fun k => (a :: tl).count k) =
        L.map (fun k => tl.count k + if a = k then 1 else 0) :=
      List.map_congr_left (fun k _ => by simp [List.count_cons, beq_iff_eq])
    rw [hstep]
    have hsplit : (L.map (fun k => tl.count k + if a = k then 1 else 0)).sum =
        (L.map (fun k => tl.count k)).sum +
          (L.map (fun k => if a = k then 1 else 0)).sum := by
      induction L with
      | nil => rfl
      | cons b tb ihb => simp [ihb]; omega
    rw [hsplit, ih htl, sum_map_ite_eq_count, List.count_eq_one_of_mem hnd ha]
    simp

theorem subRowsFor_subset (t : Table) (p : String) : ∀ r ∈ subRowsFor t p, r ∈ t.rows := by
  intro r hr
  unfold subRowsFor at hr
  by_cases h : t.cols.contains "plantel" = true
  · rw [if_pos h] at hr
    exact (List.filter_sublist t.rows).subset hr
  · rw [if_neg h] at hr
    exact absurd hr (List.not_mem_nil r)

/-! ## C5 -/

/-- C5: for every group, `likert_answers` equals the number of non-null
cells across all Likert columns of the group's rows (flattened over columns
and rows, not the row count), and when it is zero every percentage of the
group is zero.  Stated under the canonical-table hypothesis the ranker runs
with: every Likert column exists in the table and holds only canonical
labels, as `classify_and_prepare` guarantees. -/
theorem C5_confirmed (t : Table) (likertC : List String) (p : String)
    (hcols : ∀ c ∈ likertC, c ∈ t.cols)
    (hcanon : ∀ c ∈ likertC, ∀ r ∈ t.rows, ∀ v, r c = some v → v ∈ LIKERT5_ORDER) :
    (compareRowFor t likertC p).likert_answers =
      (((subRowsFor t p).map (fun r => likertC.filterMap (fun c => r c))).flatten).length
    ∧ ((compareRowFor t likertC p).likert_answers = 0 →
        ∀ k, (compareRowFor t likertC p).pct k = 0) := by
  have hpresent : likertColsPresent t likertC = likertC :=
    List.filter_eq_self.2 (fun c hc => by simpa using hcols c hc)
  have hvals : likertVals t likertC p =
      ((subRowsFor t p).map (fun r => likertC.filterMap (fun c => r c))).flatten := by
    rw [likertVals, hpresent]
  constructor
  · show likertAnswersFor t likertC p = _
    rw [likertAnswersFor, ← hvals]
    by_cases h0 : (subRowsFor t p).length = 0
    · have hsub0 : subRowsFor t p = [] := List.length_eq_zero.1 h0
      have hv0 : likertVals t likertC p = [] := by
        rw [likertVals, hsub0]
        rfl
      rw [hv0]
      have hz : ∀ k, likertCounts t likertC p k = 0 := fun k => by
        rw [likertCounts, if_pos h0]
      rw [List.map_congr_left (fun k _ => hz k)]
      simp
    · by_cases hcp : (likertColsPresent t likertC).isEmpty = true
      · have hlc : likertC = [] := by rwa [hpresent, List.isEmpty_iff] at hcp
        have hv0 : likertVals t likertC p = [] := by
          rw [likertVals, hpresent, hlc]
          simp
        rw [hv0]
        have hz : ∀ k, likertCounts t likertC p k = 0 := fun k => by
          rw [likertCounts, if_neg h0, if_pos hcp]
        rw [List.map_congr_left (fun k _ => hz k)]
        simp
      · have hcnt : ∀ k, likertCounts t likertC p k = (likertVals t likertC p).count k :=
          fun k => by rw [likertCounts, if_neg h0, if_neg (by simp [hcp])]
        rw [List.map_congr_left (fun k _ => hcnt k)]
        refine sum_counts_eq_length LIKERT5_ORDER (by decide) _ ?_
        intro v hv
        rw [hvals] at hv
        obtain ⟨l2, hl2, hvl2⟩ := List.mem_flatten.1 hv
        obtain ⟨r, hr, rfl⟩ := List.mem_map.1 hl2
        obtain ⟨c, hc, hrc⟩ := List.mem_filterMap.1 hvl2
        exact hcanon c hc r (subRowsFor_subset t p r hr) v hrc
  · intro h k
    have e : (compareRowFor t likertC p).likert_answers = likertAnswersFor t likertC p := rfl
    rw [e] at h
    show pctFor t likertC p k = 0
    rw [pctFor, h]
    simp

/-- C5 witness: group `B` of `Tab2` has exactly one answered Likert cell. -/
theorem C5_confirmed_witness :
    (compareRowFor Tab2 ["Q"] "B").likert_answers =
      (((subRowsFor Tab2 "B").map
        (fun r => (["Q"] : List String).filterMap (fun c => r c))).flatten).length :=
  (C5_confirmed Tab2 ["Q"] "B" (by decide) (by
    intro c hc r hr v hv
    simp only [List.mem_singleton] at hc
    subst hc
    simp only [Tab2, List.mem_cons, List.not_mem_nil, or_false] at hr
    rcases hr with rfl | rfl
    · simp [rowA] at hv
    · simp [rowB] at hv
      subst hv
      decide)).1

/-! ## Order properties of the ranking key -/

instance : IsTrans CompareRow rowLE := ⟨by
  intro a b c hab hbc
  unfold rowLE at hab hbc ⊢
  rcases hab with h1 | ⟨e1, h1⟩
  · rcases hbc with h2 | ⟨e2, h2⟩
    · exact Or.inl (lt_trans h2 h1)
    · exact Or.inl (e2 ▸ h1)
  · rcases hbc with h2 | ⟨e2, h2⟩
    · exact Or.inl (e1 ▸ h2)
    · refine Or.inr ⟨e1.trans e2, ?_⟩
      rcases h1 with h1 | ⟨f1, h1⟩
      · rcases h2 with h2 | ⟨f2, h2⟩
        · exact Or.inl (lt_trans h2 h1)
        · exact Or.inl (f2 ▸ h1)
      · rcases h2 with h2 | ⟨f2, h2⟩
        · exact Or.inl (f1 ▸ h2)
        · exact Or.inr ⟨f1.trans f2, le_trans h1 h2⟩⟩

instance : IsTotal CompareRow rowLE := ⟨by
  intro a b
  unfold rowLE
  rcases lt_trichotomy a.negative_pct b.negative_pct with h | h | h
  · exact Or.inr (Or.inl h)
  · rcases lt_trichotomy a.respondents b.respondents with h2 | h2 | h2
    · exact Or.inr (Or.inr ⟨h.symm, Or.inl h2⟩)
    · rcases le_total a.plantel b.plantel with h3 | h3
      · exact Or.inl (Or.inr ⟨h, Or.inr ⟨h2, h3⟩⟩)
      · exact Or.inr (Or.inr ⟨h.symm, Or.inr ⟨h2.symm, h3⟩⟩)
    · exact Or.inl (Or.inr ⟨h, Or.inl h2⟩)
  · exact Or.inl (Or.inl h)⟩

/-! ## C7 -/

/-- A row of group `A`; with the two rows of group `B` below it gives groups
with equal `negative_pct` but different respondent counts. -/
def rowA2 : Row := fun c => if c = "plantel" then some "A" else none

def rowB2 : Row := fun c => if c = "plantel" then some "B" else none

def rowB3 : Row := fun c => if c = "plantel" then some "B" else none

/-- A two-group table with no Likert column: group `A` has one respondent,
group `B` two. -/
def T7 : Table := ⟨["plantel"], [rowA2, rowB2, rowB3]⟩

/-- C7: the claim states that for every input the output arrays are aligned
to the order sorted by `(-negative_pct, -respondents, name)`.  In the branch
with no classified Likert columns the arrays follow the alphabetical group
list instead: here both groups tie at zero `negative_pct`, so alignment to
the sorted order would require non-increasing respondents, but the output
respondents are `[1, 2]`. -/
theorem C7_counterexample :
    (compute_likert_compare T7 [] ["A", "B"]).negative_pct = [0, 0] ∧
    (compute_likert_compare T7 [] ["A", "B"]).respondents = [1, 2] ∧
    ¬ List.Sorted (fun a b : ℚ × Nat => b.1 < a.1 ∨ (a.1 = b.1 ∧ b.2 ≤ a.2))
        (List.zip (compute_likert_compare T7 [] ["A", "B"]).negative_pct
          (compute_likert_compare T7 [] ["A", "B"]).respondents) := by
  refine ⟨by decide, by decide, by decide⟩

/-- C7 (amended): when at least one group and at least one Likert column
exist, there is a list of per-group rows, a permutation of the ranker's
per-group aggregates, sorted by the key `(-negative_pct, -respondents, name
ascending)` — ties on `negative_pct` fall to respondents descending then
name ascending — such that every output array is the index-aligned image of
that sorted list; with no Likert columns the arrays instead follow the
supplied group order unsorted. -/
theorem C7_corrected (t : Table) (likertC ps : List String)
    (h1 : ps ≠ []) (h2 : likertC ≠ []) :
    ∃ rows : List CompareRow,
      rows.Perm (ps.map (compareRowFor t likertC))
      ∧ List.Sorted rowLE rows
      ∧ (∀ a b : CompareRow, rowLE a b ↔
          (b.negative_pct < a.negative_pct ∨
            (a.negative_pct = b.negative_pct ∧
              (b.respondents < a.respondents ∨
                (a.respondents = b.respondents ∧ a.plantel ≤ b.plantel)))))
      ∧ (compute_likert_compare t likertC ps).planteles = rows.map (fun r => r.plantel)
      ∧ (compute_likert_compare t likertC ps).respondents =
          rows.map (fun r => r.respondents)
      ∧ (compute_likert_compare t likertC ps).likert_answers =
          rows.map (fun r => r.likert_answers)
      ∧ (compute_likert_compare t likertC ps).negative_pct =
          rows.map (fun r => r.negative_pct)
      ∧ (compute_likert_compare t likertC ps).positive_pct =
          rows.map (fun r => r.positive_pct)
      ∧ (compute_likert_compare t likertC ps).pct_by_label =
          LIKERT5_ORDER.map (fun k => (k, rows.map (fun r => r.pct k))) := by
  refine ⟨List.insertionSort rowLE (ps.map (compareRowFor t likertC)),
    List.perm_insertionSort _ _, List.sorted_insertionSort _ _,
    fun a b => Iff.rfl, ?_, ?_, ?_, ?_, ?_, ?_⟩
  all_goals rw [compute_likert_compare_main t likertC ps h1 h2]

/-- C7 witness: the alignment applied to the concrete table `Tab2`. -/
theorem C7_corrected_witness :
    ∃ rows : List CompareRow,
      rows.Perm ((["A", "B"] : List String).map (compareRowFor Tab2 ["Q"]))
      ∧ List.Sorted rowLE rows
      ∧ (compute_likert_compare Tab2 ["Q"] ["A", "B"]).planteles =
          rows.map (fun r => r.plantel) := by
  obtain ⟨rows, hperm, hsort, -, hal, -⟩ :=
    C7_corrected Tab2 ["Q"] ["A", "B"] (by decide) (by decide)
  exact ⟨rows, hperm, hsort, hal⟩

/-! ## Eligible-index lemmas for C2 -/

theorem elig_mem_iff {α : Type} (q : α → Bool) :
    ∀ (l : List α) (s i : Nat),
      (i ∈ ((List.enumFrom s l).filter (fun ia => q ia.2)).map Prod.fst) ↔
        (s ≤ i ∧ ∃ a, l.get? (i - s) = some a ∧ q a = true)
  | [], s, i => by simp
  | a :: tl, s, i => by
    have hrec := elig_mem_iff q tl (s + 1) i
    rw [show List.enumFrom s (a :: tl) = (s, a) :: List.enumFrom (s + 1) tl from rfl,
      List.filter_cons]
    by_cases hqa : q a = true
    · rw [if_pos (by simpa using hqa), List.map_cons, List.mem_cons, hrec]
      constructor
      · rintro (rfl | ⟨hs1, b, hb, hqb⟩)
        · exact ⟨le_refl _, a, by simp, hqa⟩
        · refine ⟨by omega, b, ?_, hqb⟩
          rw [show i - s = (i - (s + 1)) + 1 by omega]
          simpa using hb
      · rintro ⟨hs, b, hb, hqb⟩
        rcases Nat.eq_or_lt_of_le hs with rfl | hlt
        · exact Or.inl rfl
        · refine Or.inr ⟨hlt, b, ?_, hqb⟩
          rw [show i - s = (i - (s + 1)) + 1 by omega] at hb
          simpa using hb
    · rw [if_neg (by simpa using hqa), hrec]
      constructor
      · rintro ⟨hs1, b, hb, hqb⟩
        refine ⟨by omega, b, ?_, hqb⟩
        rw [show i - s = (i - (s + 1)) + 1 by omega]
        simpa using hb
      · rintro ⟨hs, b, hb, hqb⟩
        have hlt : s + 1 ≤ i := by
          by_contra hcon
          have hi : i = s := by omega
          subst hi
          rw [Nat.sub_self] at hb
          simp only [List.get?] at hb
          rw [show b = a from (by simpa using hb : a = b).symm] at hqb
          exact hqa hqb
        refine ⟨hlt, b, ?_, hqb⟩
        rw [show i - s = (i - (s + 1)) + 1 by omega] at hb
        simpa using hb

theorem elig_sorted {α : Type} (q : α → Bool) :
    ∀ (l : List α) (s : Nat),
      (((List.enumFrom s l).filter (fun ia => q ia.2)).map Prod.fst).Sorted (· < ·)
  | [], _ => by simp
  | a :: tl, s => by
    rw [show List.enumFrom s (a :: tl) = (s, a) :: List.enumFrom (s + 1) tl from rfl,
      List.filter_cons]
    by_cases hqa : q a = true
    · rw [if_pos (by simpa using hqa), List.map_cons, List.sorted_cons]
      refine ⟨?_, elig_sorted q tl (s + 1)⟩
      intro b hb
      have := ((elig_mem_iff q tl (s + 1) b).1 hb).1
      omega
    · rw [if_neg (by simpa using hqa)]
      exact elig_sorted q tl (s + 1)

theorem elig_length {α : Type} (q : α → Bool) :
    ∀ (l : List α) (s : Nat),
      (((List.enumFrom s l).filter (fun ia => q ia.2)).map Prod.fst).length =
        (l.filter q).length
  | [], _ => rfl
  | a :: tl, s => by
    rw [show List.enumFrom s (a :: tl) = (s, a) :: List.enumFrom (s + 1) tl from rfl,
      List.filter_cons, List.filter_cons]
    by_cases hqa : q a = true
    · rw [if_pos (by simpa using hqa), if_pos hqa, List.map_cons]
      simp [elig_length q tl (s + 1)]
    · rw [if_neg (by simpa using hqa), if_neg (by simpa using hqa)]
      exact elig_length q tl (s + 1)

theorem mem_take_of_lt_mem {l : List Nat} (hs : l.Sorted (· < ·)) :
    ∀ (k i j : Nat), i < j → j ∈ l.take k → i ∈ l → i ∈ l.take k := by
  induction l with
  | nil =>
    intro k i j _ _ hi
    exact absurd hi (List.not_mem_nil i)
  | cons a tl ih =>
    intro k i j hij hj hi
    rcases k with _ | k
    · simp at hj
    · rw [List.take_succ_cons] at hj ⊢
      rcases List.mem_cons.1 hj with rfl | hj2
      · exfalso
        rcases List.mem_cons.1 hi with rfl | hi2
        · omega
        · have := (List.sorted_cons.1 hs).1 i hi2
          omega
      · rcases List.mem_cons.1 hi with rfl | hi2
        · exact List.mem_cons_self _ _
        · exact List.mem_cons_of_mem _
            (ih (List.sorted_cons.1 hs).2 k i j hij hj2 hi2)

theorem count_true_map {α : Type} (f : α → Bool) (l : List α) :
    (l.map f).count true = (l.filter f).length := by
  induction l with
  | nil => rfl
  | cons a tl ih =>
    rw [List.map_cons, List.count_cons, List.filter_cons]
    cases hfa : f a <;> simp [hfa, ih]

theorem length_filter_range_mem (foc : List Nat) (n : Nat) (hnd : foc.Nodup)
    (hlt : ∀ i ∈ foc, i < n) :
    ((List.range n).filter (fun i => foc.contains i)).length = foc.length := by
  have hperm : ((List.range n).filter (fun i => foc.contains i)).Perm foc := by
    apply List.perm_of_nodup_nodup_toFinset_eq
    · exact (List.nodup_range n).filter _
    · exact hnd
    · ext x
      simp only [List.mem_toFinset, List.mem_filter, List.mem_range, List.contains,
        List.elem_iff]
      exact ⟨fun h => h.2, fun h => ⟨hlt x h, h⟩⟩
  exact hperm.length_eq

/-! ## C2 -/

/-- C2: the claim states that the flagged entries form a prefix of the
sorted sequence.  At this input both groups tie at zero `negative_pct` and
the ineligible group `A` (no Likert answers) sorts first, so the single
flagged entry sits at index 1 behind an unflagged index 0 — not a prefix of
the sorted sequence. -/
theorem C2_counterexample :
    (compute_likert_compare Tab2 ["Q"] ["A", "B"]).foco_red = [false, true] ∧
    (compute_likert_compare Tab2 ["Q"] ["A", "B"]).likert_answers = [0, 1] ∧
    (compute_likert_compare Tab2 ["Q"] ["A", "B"]).negative_pct = [0, 0] := by
  refine ⟨by decide, by decide, by decide⟩

/-- C2 (amended): exactly `min(3, number of groups with likert_answers > 0)`
entries of `foco_red` are true; every flagged entry has `likert_answers > 0`
(a group with zero Likert answers is never flagged, whatever its sort
position); and the flagged entries form a prefix of the subsequence of
eligible entries in sorted order — though not necessarily of the whole
sorted sequence. -/
theorem C2_corrected (t : Table) (likertC ps : List String) :
    ((compute_likert_compare t likertC ps).foco_red.count true =
      min 3 (((compute_likert_compare t likertC ps).likert_answers.filter
        (fun n => n > 0)).length))
    ∧ (∀ i, (compute_likert_compare t likertC ps).foco_red.get? i = some true →
        ∃ n, (compute_likert_compare t likertC ps).likert_answers.get? i = some n ∧ 0 < n)
    ∧ (∀ i j, i < j →
        (compute_likert_compare t likertC ps).foco_red.get? j = some true →
        (∃ n, (compute_likert_compare t likertC ps).likert_answers.get? i = some n ∧ 0 < n) →
        (compute_likert_compare t likertC ps).foco_red.get? i = some true) := by
  by_cases h1 : ps = []
  · subst h1
    have ef : (compute_likert_compare t likertC []).foco_red = [] := by
      rw [compute_likert_compare_no_groups]
    have ea : (compute_likert_compare t likertC []).likert_answers = [] := by
      rw [compute_likert_compare_no_groups]
    refine ⟨by rw [ef, ea]; simp, ?_, ?_⟩
    · intro i hi
      rw [ef] at hi
      simp at hi
    · intro i j hij hj hex
      rw [ef] at hj
      simp at hj
  by_cases h2 : likertC = []
  · subst h2
    have ef : (compute_likert_compare t [] ps).foco_red = ps.map (fun _ => false) := by
      rw [compute_likert_compare_no_likert t ps h1]
    have ea : (compute_likert_compare t [] ps).likert_answers =
        ps.map (fun _ => (0 : Nat)) := by
      rw [compute_likert_compare_no_likert t ps h1]
    refine ⟨?_, ?_, ?_⟩
    · rw [ef, ea]
      have hc0 : (ps.map (fun _ => false)).count true = 0 := by
        rw [List.count_eq_zero]
        simp
      have hf0 : ((ps.map (fun _ => (0 : Nat))).filter (fun n => n > 0)) = [] := by
        rw [List.filter_eq_nil]
        intro a ha
        obtain ⟨x, -, rfl⟩ := List.mem_map.1 ha
        decide
      rw [hc0, hf0]
      simp
    · intro i hi
      rw [ef] at hi
      have := List.get?_mem hi
      simp at this
    · intro i j hij hj hex
      rw [ef] at hj
      have := List.get?_mem hj
      simp at this
  · have heq := compute_likert_compare_main t likertC ps h1 h2
    set rows := List.insertionSort rowLE (ps.map (compareRowFor t likertC)) with hrowsdef
    set elig := (rows.enum.filter (fun ir => ir.2.likert_answers > 0)).map Prod.fst
      with heligdef
    set foc := elig.take 3 with hfocdef
    have ef : (compute_likert_compare t likertC ps).foco_red =
        (List.range rows.length).map (fun i => foc.contains i) := by rw [heq]
    have ea : (compute_likert_compare t likertC ps).likert_answers =
        rows.map (fun r => r.likert_answers) := by rw [heq]
    have hq : ∀ i, i ∈ elig ↔ ∃ a, rows.get? i = some a ∧ a.likert_answers > 0 := by
      intro i
      rw [heligdef]
      have h := elig_mem_iff (fun r : CompareRow => decide (r.likert_answers > 0)) rows 0 i
      rw [show List.enumFrom 0 rows = rows.enum from rfl] at h
      simp only [Nat.sub_zero, Nat.zero_le, true_and] at h
      simpa [decide_eq_true_eq] using h
    have hsorted : elig.Sorted (· < ·) := by
      rw [heligdef]
      have h := elig_sorted (fun r : CompareRow => decide (r.likert_answers > 0)) rows 0
      rw [show List.enumFrom 0 rows = rows.enum from rfl] at h
      simpa using h
    have hlen : elig.length = (rows.filter (fun r => r.likert_answers > 0)).length := by
      rw [heligdef]
      have h := elig_length (fun r : CompareRow => decide (r.likert_answers > 0)) rows 0
      rw [show List.enumFrom 0 rows = rows.enum from rfl] at h
      simpa using h
    have hnd : elig.Nodup := hsorted.nodup
    have hfoc_sub : ∀ i ∈ foc, i ∈ elig := fun i hi => (List.take_sublist 3 elig).subset hi
    have hfoc_lt : ∀ i ∈ foc, i < rows.length := by
      intro i hi
      obtain ⟨a, ha, -⟩ := (hq i).1 (hfoc_sub i hi)
      obtain ⟨hlt, -⟩ := List.get?_eq_some.1 ha
      exact hlt
    have hfoc_nd : foc.Nodup := (List.take_sublist 3 elig).nodup hnd
    refine ⟨?_, ?_, ?_⟩
    · have hcomp : List.filter ((fun n : Nat => decide (n > 0)) ∘
          fun r : CompareRow => r.likert_answers) rows =
          List.filter (fun r : CompareRow => decide (r.likert_answers > 0)) rows :=
        List.filter_congr (fun x _ => rfl)
      rw [ef, ea, count_true_map,
        length_filter_range_mem foc rows.length hfoc_nd hfoc_lt, hfocdef,
        List.length_take, hlen, List.filter_map, List.length_map, hcomp]
    · intro i hi
      rw [ef] at hi
      rw [ea]
      by_cases hilt : i < rows.length
      · rw [List.get?_map, List.get?_range hilt] at hi
        have hci : foc.contains i = true := by simpa using hi
        have himem : i ∈ elig := hfoc_sub i (by simpa using hci)
        obtain ⟨a, ha, hqa⟩ := (hq i).1 himem
        refine ⟨a.likert_answers, ?_, hqa⟩
        rw [List.get?_map, ha]
        rfl
      · rw [List.get?_map, List.get?_eq_none.2 (by simpa using Nat.le_of_not_lt hilt)] at hi
        exact absurd hi (by simp)
    · intro i j hij hj hex
      rw [ef] at hj ⊢
      rw [ea] at hex
      by_cases hjlt : j < rows.length
      · rw [List.get?_map, List.get?_range hjlt] at hj
        have hcj : j ∈ foc := by simpa using hj
        obtain ⟨n0, hn0, hpos⟩ := hex
        rw [List.get?_map] at hn0
        obtain ⟨a, ha, han⟩ := Option.map_eq_some'.1 hn0
        have hielig : i ∈ elig := (hq i).2 ⟨a, ha, by rw [han]; exact hpos⟩
        have hifoc : i ∈ foc := by
          rw [hfocdef] at hcj ⊢
          exact mem_take_of_lt_mem hsorted 3 i j hij hcj hielig
        have hilt : i < rows.length := hfoc_lt i hifoc
        rw [List.get?_map, List.get?_range hilt]
        simp [hifoc]
      · rw [List.get?_map, List.get?_eq_none.2 (by simpa using Nat.le_of_not_lt hjlt)] at hj
        exact absurd hj (by simp)

/-- C2 witness: the amended eligibility property applied at the flagged
index of the concrete two-group table. -/
theorem C2_corrected_witness :
    ∃ n, (compute_likert_compare Tab2 ["Q"] ["A", "B"]).likert_answers.get? 1 = some n ∧
      0 < n :=
  (C2_corrected Tab2 ["Q"] ["A", "B"]).2.1 1 (by decide)

end Likert
